import Mathlib

/-!
Verification of the link batch processor.

The definitions below are a shallow embedding of `link_batch_processor.py`:
the batch arithmetic (`num_files`, `start_idx`, `end_idx`, `batch_links`),
the worksheet model and template filling (`delete_rows`, `set_cell`,
`write_links`, `fill_template`), the output filename formatting
(`decimalRepr`, `pad2`, `filename`), the column auto-detection
(`possible_columns`, `detect_link_column`), the null-dropping link
extraction (`dropna_links`), the template lookup (`find_template_file`),
and the overall run (`generate_run`), where user-visible errors and
`st.stop` are modelled by `Except.error` and the download button is offered
exactly on `Except.ok`.
-/

/-- Number of output files: `num_files = (total_links + batch_size - 1) // batch_size`. -/
def num_files (total_links batch_size : Nat) : Nat :=
  (total_links + batch_size - 1) / batch_size

/-- Start index of batch `i`: `start_idx = i * batch_size`. -/
def start_idx (batch_size i : Nat) : Nat := i * batch_size

/-- End index of batch `i`: `end_idx = min((i + 1) * batch_size, total_links)`. -/
def end_idx (total_links batch_size i : Nat) : Nat :=
  min ((i + 1) * batch_size) total_links

/-- The slice `links[start_idx:end_idx]` taken in the loop body. -/
def batch_links (links : List String) (batch_size i : Nat) : List String :=
  (links.drop (start_idx batch_size i)).take
    (end_idx links.length batch_size i - start_idx batch_size i)

/-- All batches produced by the loop `for i in range(num_files)`. -/
def batches (links : List String) (batch_size : Nat) : List (List String) :=
  (List.range (num_files links.length batch_size)).map (batch_links links batch_size)

theorem batch_links_eq_take (links : List String) (bs i : Nat) :
    batch_links links bs i = (links.drop (i * bs)).take bs := by
  unfold batch_links start_idx end_idx
  rcases le_or_lt ((i + 1) * bs) links.length with h | h
  · rw [min_eq_left h]
    have hsm : (i + 1) * bs - i * bs = bs := by
      have h5 : (i + 1) * bs = i * bs + bs := by ring
      omega
    rw [hsm]
  · rw [min_eq_right (le_of_lt h)]
    have hlen : (links.drop (i * bs)).length = links.length - i * bs := by simp
    have hsm : (i + 1) * bs = i * bs + bs := by ring
    rw [List.take_of_length_le (by omega), List.take_of_length_le (by omega)]

theorem num_files_le_iff (N bs k : Nat) (hbs : 1 ≤ bs) :
    num_files N bs ≤ k ↔ N ≤ k * bs := by
  unfold num_files
  rw [Nat.div_le_iff_le_mul_add_pred (by omega), Nat.mul_comm]
  omega

theorem lt_num_files_iff (N bs i : Nat) (hbs : 1 ≤ bs) :
    i < num_files N bs ↔ i * bs < N := by
  rw [← not_le, num_files_le_iff N bs i hbs, not_le]

theorem num_files_zero (bs : Nat) (hbs : 1 ≤ bs) : num_files 0 bs = 0 :=
  Nat.div_eq_of_lt (by omega)

theorem num_files_succ (N bs : Nat) (hbs : 1 ≤ bs) (hN : 0 < N) :
    num_files N bs = num_files (N - bs) bs + 1 := by
  unfold num_files
  rcases le_or_lt N bs with h | h
  · have h1 : N + bs - 1 = (N - 1) + bs := by omega
    rw [h1, Nat.add_div_right _ (by omega)]
    have h2 : (N - 1) / bs = 0 := Nat.div_eq_of_lt (by omega)
    have h3 : N - bs = 0 := by omega
    have h4 : (0 + bs - 1) / bs = 0 := Nat.div_eq_of_lt (by omega)
    rw [h2, h3, h4]
  · have h1 : N + bs - 1 = (N - bs + bs - 1) + bs := by omega
    rw [h1, Nat.add_div_right _ (by omega)]

theorem batches_cons (links : List String) (bs : Nat) (hbs : 1 ≤ bs) (hne : links ≠ []) :
    batches links bs = links.take bs :: batches (links.drop bs) bs := by
  have hN : 0 < links.length := List.length_pos.mpr hne
  unfold batches
  rw [List.length_drop, num_files_succ links.length bs hbs hN, List.range_succ_eq_map]
  rw [List.map_cons, List.map_map]
  congr 1
  · rw [batch_links_eq_take]; simp
  · congr 1
    funext i
    show batch_links links bs (i + 1) = batch_links (links.drop bs) bs i
    rw [batch_links_eq_take, batch_links_eq_take, List.drop_drop]
    congr 2
    rw [Nat.succ_mul, Nat.add_comm]

theorem batches_flatten (links : List String) (bs : Nat) (hbs : 1 ≤ bs) :
    (batches links bs).flatten = links := by
  have H : ∀ n (l : List String), l.length ≤ n → (batches l bs).flatten = l := by
    intro n
    induction n with
    | zero =>
      intro l hl
      have hnil : l = [] := by
        cases l with
        | nil => rfl
        | cons a t => simp at hl
      subst hnil
      simp [batches, num_files_zero bs hbs]
    | succ n ih =>
      intro l hl
      by_cases hne : l = []
      · subst hne
        simp [batches, num_files_zero bs hbs]
      · rw [batches_cons l bs hbs hne, List.flatten_cons,
          ih (l.drop bs) (by rw [List.length_drop]; omega)]
        exact List.take_append_drop bs l
  exact H links.length links le_rfl

theorem batch_links_length_full (links : List String) (bs i : Nat) (hbs : 1 ≤ bs)
    (hi : i + 1 < num_files links.length bs) :
    (batch_links links bs i).length = bs := by
  have h1 : (i + 1) * bs < links.length := (lt_num_files_iff _ _ _ hbs).mp hi
  rw [batch_links_eq_take, List.length_take, List.length_drop]
  have hsm : (i + 1) * bs = i * bs + bs := by ring
  omega

theorem num_files_pos (N bs : Nat) (hbs : 1 ≤ bs) (hN : 0 < N) :
    0 < num_files N bs := by
  have := (lt_num_files_iff N bs 0 hbs).mpr (by omega)
  omega

theorem batch_links_length_last (links : List String) (bs : Nat) (hbs : 1 ≤ bs)
    (hN : 0 < links.length) :
    1 ≤ (batch_links links bs (num_files links.length bs - 1)).length ∧
      (batch_links links bs (num_files links.length bs - 1)).length ≤ bs := by
  have hpos : 0 < num_files links.length bs := num_files_pos _ _ hbs hN
  have hlast : (num_files links.length bs - 1) * bs < links.length :=
    (lt_num_files_iff _ _ _ hbs).mp (by omega)
  rw [batch_links_eq_take, List.length_take, List.length_drop]
  omega

/-- C1: for every link list of length `N ≥ 0` and every `batch_size ≥ 1` the loop
produces exactly `num_files = ceil(N / batch_size)` contiguous slices
`links[i * batch_size : min((i+1) * batch_size, N)]`; their concatenation is the
original list (no reordering, duplication or omission), every batch but the last
has exactly `batch_size` elements, the last has between `1` and `batch_size`
elements, and `N = 0` yields no batches.  The ceiling is characterised by
`N ≤ num_files * batch_size` and, for `N > 0`, `(num_files - 1) * batch_size < N`. -/
theorem C1_batch_partition (links : List String) (bs : Nat) (hbs : 1 ≤ bs) :
    (batches links bs).length = num_files links.length bs ∧
    links.length ≤ num_files links.length bs * bs ∧
    (0 < links.length → (num_files links.length bs - 1) * bs < links.length) ∧
    batches links bs =
      (List.range (num_files links.length bs)).map (fun i =>
        (links.drop (start_idx bs i)).take (end_idx links.length bs i - start_idx bs i)) ∧
    (batches links bs).flatten = links ∧
    (∀ i, i + 1 < num_files links.length bs → (batch_links links bs i).length = bs) ∧
    (0 < links.length →
      1 ≤ (batch_links links bs (num_files links.length bs - 1)).length ∧
        (batch_links links bs (num_files links.length bs - 1)).length ≤ bs) ∧
    (links.length = 0 → batches links bs = []) := by
  refine ⟨by simp [batches], ?_, ?_, rfl, batches_flatten links bs hbs,
    fun i hi => batch_links_length_full links bs i hbs hi,
    fun hN => batch_links_length_last links bs hbs hN, ?_⟩
  · exact (num_files_le_iff _ _ _ hbs).mp le_rfl
  · intro hN
    have hpos : 0 < num_files links.length bs := num_files_pos _ _ hbs hN
    exact (lt_num_files_iff _ _ _ hbs).mp (by omega)
  · intro h0
    simp [batches, h0, num_files_zero bs hbs]

/-- Witness for C1 at a concrete input. -/
theorem C1_batch_partition_witness :
    1 ≤ 2 ∧ (batches ["a", "b", "c"] 2).flatten = ["a", "b", "c"] :=
  ⟨by decide, (C1_batch_partition ["a", "b", "c"] 2 (by decide)).2.2.2.2.1⟩

/-- A worksheet: a list of rows (1-based in the API), each row a list of cells
(1-based columns); `none` is an empty cell. -/
abbrev Sheet := List (List (Option String))

/-- Model of `ws.max_row`. -/
def max_row (ws : Sheet) : Nat := ws.length

/-- Model of `ws.delete_rows(idx, amount)`: remove `amount` rows starting at the
1-based row `idx`. -/
def delete_rows (ws : Sheet) (idx amount : Nat) : Sheet :=
  ws.take (idx - 1) ++ ws.drop (idx - 1 + amount)

/-- The clearing step `if max_row > 1: ws.delete_rows(2, max_row - 1)`. -/
def clear_data (ws : Sheet) : Sheet :=
  if max_row ws > 1 then delete_rows ws 2 (max_row ws - 1) else ws

/-- Extend a list to length at least `n` with a default entry. -/
def pad_to {α : Type} (l : List α) (n : Nat) (d : α) : List α :=
  l ++ List.replicate (n - l.length) d

/-- Assign the 1-based column `c` of one row, creating cells as needed. -/
def set_in_row (row : List (Option String)) (c : Nat) (v : String) : List (Option String) :=
  (pad_to row c none).set (c - 1) (some v)

/-- Model of `ws.cell(row=r, column=c, value=v)` (1-based), creating the cell
if it does not exist yet. -/
def set_cell (ws : Sheet) (r c : Nat) (v : String) : Sheet :=
  (pad_to ws r []).set (r - 1) (set_in_row ((pad_to ws r []).getD (r - 1) []) c v)

/-- Model of `for row_idx, link in enumerate(batch_links, start=2): ws.cell(...)`,
starting at `row`. -/
def write_links (ws : Sheet) (links : List String) (row : Nat) : Sheet :=
  match links with
  | [] => ws
  | l :: rest => write_links (set_cell ws row 1 l) rest (row + 1)

/-- The per-batch template fill: clear the data rows, then write the batch
links into column 1 starting at row 2. -/
def fill_template (ws : Sheet) (links : List String) : Sheet :=
  write_links (clear_data ws) links 2

theorem set_concat {α : Type} (l : List α) (a b : α) :
    (l ++ [a]).set l.length b = l ++ [b] := by
  induction l with
  | nil => rfl
  | cons x xs ih =>
    show x :: (xs ++ [a]).set xs.length b = x :: (xs ++ [b])
    rw [ih]

theorem getD_concat {α : Type} (l : List α) (a d : α) :
    (l ++ [a]).getD l.length d = a := by
  induction l with
  | nil => rfl
  | cons x xs ih =>
    show (xs ++ [a]).getD xs.length d = a
    exact ih

theorem set_cell_append (ws : Sheet) (v : String) :
    set_cell ws (ws.length + 1) 1 v = ws ++ [[some v]] := by
  unfold set_cell pad_to
  have h1 : ws.length + 1 - ws.length = 1 := by omega
  have hrep : List.replicate 1 ([] : List (Option String)) = [[]] := rfl
  rw [h1, hrep, show (ws.length + 1 - 1) = ws.length by omega, getD_concat]
  have h2 : set_in_row [] 1 v = [some v] := rfl
  rw [h2, set_concat]

theorem write_links_append (links : List String) :
    ∀ (ws : Sheet) (r : Nat), r = ws.length + 1 →
      write_links ws links r = ws ++ links.map (fun l => [some l]) := by
  induction links with
  | nil => intro ws r h; simp [write_links]
  | cons l rest ih =>
    intro ws r h
    subst h
    show write_links (set_cell ws (ws.length + 1) 1 l) rest (ws.length + 1 + 1) = _
    rw [set_cell_append, ih (ws ++ [[some l]]) (ws.length + 1 + 1) (by simp)]
    simp

theorem clear_data_eq_take (ws : Sheet) (h : 1 ≤ ws.length) :
    clear_data ws = ws.take 1 := by
  unfold clear_data max_row delete_rows
  by_cases h2 : ws.length > 1
  · rw [if_pos h2]
    have h3 : 2 - 1 + (ws.length - 1) = ws.length := by omega
    rw [h3, List.drop_length, List.append_nil]
  · rw [if_neg h2]
    exact (List.take_of_length_le (by omega)).symm

/-- C2: for every batch, the generated document is the template sheet with rows
`2..max_row` deleted and the batch links written into column 1 at consecutive
rows starting at row 2, in batch order: the result is the template's row 1
followed by one single-cell row per link, its row 1 is unchanged, and the data
column (column 1 of rows 2 and onward) equals exactly the batch's links. -/
theorem C2_template_fill (ws : Sheet) (links : List String) (bs i : Nat)
    (h : 1 ≤ ws.length) :
    fill_template ws (batch_links links bs i) =
      ws.take 1 ++ (batch_links links bs i).map (fun l => [some l]) ∧
    (fill_template ws (batch_links links bs i)).take 1 = ws.take 1 ∧
    ((fill_template ws (batch_links links bs i)).drop 1).map (fun row => row.getD 0 none) =
      (batch_links links bs i).map some := by
  cases ws with
  | nil => simp at h
  | cons r0 t =>
    have hfill : fill_template (r0 :: t) (batch_links links bs i) =
        (r0 :: t).take 1 ++ (batch_links links bs i).map (fun l => [some l]) := by
      unfold fill_template
      rw [clear_data_eq_take _ (by simp)]
      exact write_links_append _ ((r0 :: t).take 1) 2 rfl
    refine ⟨hfill, ?_, ?_⟩
    · rw [hfill]; rfl
    · rw [hfill]
      show ((batch_links links bs i).map (fun l => [some l])).map
          (fun row => row.getD 0 none) = _
      rw [List.map_map]
      exact List.map_congr_left (fun l _ => rfl)

/-- Witness for C2 at a concrete template sheet and batch. -/
theorem C2_template_fill_witness :
    1 ≤ ([[some ("h")]] : Sheet).length ∧
      fill_template [[some ("h")]] (batch_links ["a", "b", "c"] 2 0) =
        ([[some ("h")]] : Sheet).take 1 ++
          (batch_links ["a", "b", "c"] 2 0).map (fun l => [some l]) :=
  ⟨by decide, (C2_template_fill [[some ("h")]] ["a", "b", "c"] 2 0 (by decide)).1⟩

/-- The decimal digit character for `d < 10`. -/
def digitChar (d : Nat) : Char := Char.ofNat (48 + d)

/-- Little-endian decimal digits of `n`, with explicit fuel. -/
def natDigitsAux : Nat → Nat → List Nat
  | _, 0 => []
  | 0, _ + 1 => []
  | fuel + 1, n + 1 => (n + 1) % 10 :: natDigitsAux fuel ((n + 1) / 10)

/-- Value of a little-endian decimal digit list. -/
def fromDigits : List Nat → Nat
  | [] => 0
  | d :: rest => d + 10 * fromDigits rest

/-- Python's decimal rendering `str(n)` as a character list. -/
def decimalRepr (n : Nat) : List Char :=
  if n = 0 then ['0'] else ((natDigitsAux n n).map digitChar).reverse

/-- Python's format `f"{n:02d}"`: zero-pad the decimal rendering to width 2. -/
def pad2 (n : Nat) : List Char :=
  if n < 10 then '0' :: decimalRepr n else decimalRepr n

/-- The per-batch output filename
`f"{platform}_Batch_{i+1:02d}_Links_{start_idx+1}-{end_idx}.xlsx"`
as a character list. -/
def filenameChars (platform : List Char) (total bs i : Nat) : List Char :=
  platform ++ "_Batch_".data ++ pad2 (i + 1) ++ "_Links_".data ++
    decimalRepr (start_idx bs i + 1) ++ "-".data ++
    decimalRepr (end_idx total bs i) ++ ".xlsx".data

/-- The per-batch output filename as a string. -/
def filename (platform : String) (total bs i : Nat) : String :=
  ⟨filenameChars platform.data total bs i⟩

/-- The entry filenames written into the archive, in write order. -/
def archive_filenames (platform : String) (total bs : Nat) : List String :=
  (List.range (num_files total bs)).map (filename platform total bs)

theorem fromDigits_natDigitsAux : ∀ (fuel n : Nat), n ≤ fuel →
    fromDigits (natDigitsAux fuel n) = n := by
  intro fuel
  induction fuel with
  | zero =>
    intro n hn
    have h0 : n = 0 := by omega
    subst h0
    rfl
  | succ fuel ih =>
    intro n hn
    cases n with
    | zero => rfl
    | succ m =>
      rw [show natDigitsAux (fuel + 1) (m + 1) =
        (m + 1) % 10 :: natDigitsAux fuel ((m + 1) / 10) from rfl]
      show (m + 1) % 10 + 10 * fromDigits (natDigitsAux fuel ((m + 1) / 10)) = m + 1
      have hlt : (m + 1) / 10 < m + 1 := Nat.div_lt_self (Nat.succ_pos m) (by omega)
      rw [ih ((m + 1) / 10) (by omega)]
      omega

theorem natDigitsAux_lt : ∀ (fuel n d : Nat), d ∈ natDigitsAux fuel n → d < 10 := by
  intro fuel
  induction fuel with
  | zero =>
    intro n d hd
    cases n with
    | zero => simp [natDigitsAux] at hd
    | succ m => simp [natDigitsAux] at hd
  | succ fuel ih =>
    intro n d hd
    cases n with
    | zero => simp [natDigitsAux] at hd
    | succ m =>
      rw [show natDigitsAux (fuel + 1) (m + 1) =
        (m + 1) % 10 :: natDigitsAux fuel ((m + 1) / 10) from rfl] at hd
      rcases List.mem_cons.mp hd with h | h
      · omega
      · exact ih _ _ h

theorem digitChar_injOn (d e : Nat) (hd : d < 10) (he : e < 10)
    (h : digitChar d = digitChar e) : d = e := by
  interval_cases d <;> interval_cases e <;> revert h <;> decide

theorem digitChar_ne (d : Nat) (hd : d < 10) :
    digitChar d ≠ '_' ∧ digitChar d ≠ '-' ∧ digitChar d ≠ '/' := by
  interval_cases d <;> decide

theorem map_digitChar_inj : ∀ (l₁ l₂ : List Nat), (∀ d ∈ l₁, d < 10) →
    (∀ d ∈ l₂, d < 10) → l₁.map digitChar = l₂.map digitChar → l₁ = l₂ := by
  intro l₁
  induction l₁ with
  | nil =>
    intro l₂ _ _ h
    cases l₂ with
    | nil => rfl
    | cons b t => simp at h
  | cons a t ih =>
    intro l₂ h₁ h₂ h
    cases l₂ with
    | nil => simp at h
    | cons b t₂ =>
      simp only [List.map_cons, List.cons.injEq] at h
      have hab : a = b := digitChar_injOn a b (h₁ a (by simp)) (h₂ b (by simp)) h.1
      rw [hab, ih t₂ (fun d hd => h₁ d (by simp [hd])) (fun d hd => h₂ d (by simp [hd])) h.2]

theorem decimalRepr_spec (n : Nat) :
    ∃ ds, decimalRepr n = (ds.map digitChar).reverse ∧ (∀ d ∈ ds, d < 10) ∧
      fromDigits ds = n := by
  by_cases hn : n = 0
  · subst hn
    exact ⟨[0], by decide, by decide, rfl⟩
  · exact ⟨natDigitsAux n n, by rw [decimalRepr, if_neg hn],
      fun d hd => natDigitsAux_lt n n d hd, fromDigits_natDigitsAux n n le_rfl⟩

theorem decimalRepr_injective (m n : Nat) (h : decimalRepr m = decimalRepr n) : m = n := by
  obtain ⟨ds₁, h₁, hlt₁, hv₁⟩ := decimalRepr_spec m
  obtain ⟨ds₂, h₂, hlt₂, hv₂⟩ := decimalRepr_spec n
  rw [h₁, h₂] at h
  have hmap : ds₁.map digitChar = ds₂.map digitChar := by
    have h3 := congrArg List.reverse h
    simpa using h3
  rw [← hv₁, ← hv₂, map_digitChar_inj ds₁ ds₂ hlt₁ hlt₂ hmap]

theorem decimalRepr_mem (n : Nat) (x : Char) (hx : x ∈ decimalRepr n) :
    ∃ d, d < 10 ∧ x = digitChar d := by
  obtain ⟨ds, h₁, hlt, _⟩ := decimalRepr_spec n
  rw [h₁, List.mem_reverse] at hx
  obtain ⟨d, hd, hdx⟩ := List.mem_map.mp hx
  exact ⟨d, hlt d hd, hdx.symm⟩

theorem pad2_mem (n : Nat) (x : Char) (hx : x ∈ pad2 n) :
    ∃ d, d < 10 ∧ x = digitChar d := by
  unfold pad2 at hx
  by_cases h : n < 10
  · rw [if_pos h] at hx
    rcases List.mem_cons.mp hx with h0 | h0
    · exact ⟨0, by omega, by rw [h0]; decide⟩
    · exact decimalRepr_mem n x h0
  · rw [if_neg h] at hx
    exact decimalRepr_mem n x hx

theorem append_sep_inj (c : Char) :
    ∀ (l₁ l₂ r₁ r₂ : List Char), (∀ x ∈ l₁, x ≠ c) → (∀ x ∈ l₂, x ≠ c) →
      l₁ ++ c :: r₁ = l₂ ++ c :: r₂ → l₁ = l₂ ∧ r₁ = r₂ := by
  intro l₁
  induction l₁ with
  | nil =>
    intro l₂ r₁ r₂ _ h₂ h
    cases l₂ with
    | nil => simpa using h
    | cons b t =>
      exfalso
      simp only [List.nil_append, List.cons_append, List.cons.injEq] at h
      exact h₂ b (by simp) h.1.symm
  | cons a t ih =>
    intro l₂ r₁ r₂ h₁ h₂ h
    cases l₂ with
    | nil =>
      exfalso
      simp only [List.nil_append, List.cons_append, List.cons.injEq] at h
      exact h₁ a (by simp) h.1
    | cons b t₂ =>
      simp only [List.cons_append, List.cons.injEq] at h
      obtain ⟨he, ht⟩ := h
      obtain ⟨ha, hb⟩ := ih t₂ r₁ r₂ (fun x hx => h₁ x (by simp [hx]))
        (fun x hx => h₂ x (by simp [hx])) ht
      exact ⟨by rw [he, ha], hb⟩

theorem filename_injective (platform : List Char) (total bs : Nat) (hbs : 1 ≤ bs)
    (i j : Nat) (h : filenameChars platform total bs i = filenameChars platform total bs j) :
    i = j := by
  have hL : "_Links_".data = '_' :: "Links_".data := by decide
  have hD : "-".data = ['-'] := by decide
  unfold filenameChars at h
  simp only [hL, hD, List.append_assoc, List.cons_append, List.nil_append] at h
  have h1 := List.append_cancel_left h
  simp only [List.cons.injEq, true_and] at h1
  have hpd : ∀ (n : Nat), ∀ x ∈ pad2 n, x ≠ '_' := by
    intro n x hx
    obtain ⟨d, hd, hdx⟩ := pad2_mem n x hx
    rw [hdx]
    exact (digitChar_ne d hd).1
  obtain ⟨_, h3⟩ := append_sep_inj '_' _ _ _ _ (hpd (i + 1)) (hpd (j + 1)) h1
  simp only [List.cons.injEq, true_and] at h3
  have hdd : ∀ (n : Nat), ∀ x ∈ decimalRepr n, x ≠ '-' := by
    intro n x hx
    obtain ⟨d, hd, hdx⟩ := decimalRepr_mem n x hx
    rw [hdx]
    exact (digitChar_ne d hd).2.1
  obtain ⟨h5, _⟩ := append_sep_inj '-' _ _ _ _ (hdd (start_idx bs i + 1))
    (hdd (start_idx bs j + 1)) h3
  have h6 : start_idx bs i + 1 = start_idx bs j + 1 := decimalRepr_injective _ _ h5
  unfold start_idx at h6
  have h7 : i * bs = j * bs := by omega
  exact Nat.eq_of_mul_eq_mul_right (show 0 < bs by omega) h7

theorem mem_filenameChars (platform : List Char) (total bs i : Nat) (x : Char)
    (hx : x ∈ filenameChars platform total bs i) :
    x ∈ platform ∨ x ∈ "_Batch_".data ∨ x ∈ pad2 (i + 1) ∨ x ∈ "_Links_".data ∨
      x ∈ decimalRepr (start_idx bs i + 1) ∨ x ∈ "-".data ∨
      x ∈ decimalRepr (end_idx total bs i) ∨ x ∈ ".xlsx".data := by
  unfold filenameChars at hx
  simp only [List.mem_append] at hx
  tauto

/-- The candidate template paths and the target sheet for a platform: the
`if platform == "Instagram"` branch of `find_template_file`. -/
def template_names (platform : String) : List String × String :=
  if platform = "Instagram" then
    (["IG_Influencers_100.xlsx",
      "/mnt/user-data/uploads/1762758236509_IG_Influencers_100.xlsx"], "category ig")
  else
    (["Ven_TT_CVI.xlsx",
      "/mnt/user-data/uploads/1762758161982_Ven_TT_CVI.xlsx"], "category tt")

/-- Model of `find_template_file`: the first candidate path that exists on the
ambient filesystem `fs` (`os.path.exists`), paired with the target sheet. -/
def find_template_file (fs : String → Bool) (platform : String) :
    Option String × String :=
  ((template_names platform).1.find? fs, (template_names platform).2)

/-- A workbook: named worksheets.  Indexing `wb[name]` raises `KeyError` when
the sheet is absent, modelled by `Option`. -/
abbrev Workbook := List (String × Sheet)

/-- Sheet lookup `wb[name]`. -/
def getSheet (wb : Workbook) (nm : String) : Option Sheet :=
  (wb.find? (fun s => s.1 == nm)).map (fun s => s.2)

/-- One iteration's document generation: `ws = wb[target_sheet]` (`KeyError`
when missing, caught by the ambient `except`) followed by the pure fill and
serialization of the resulting sheet state. -/
def make_batch_file (wb : Workbook) (target_sheet : String) (lks : List String) :
    Except String Sheet :=
  match getSheet wb target_sheet with
  | none => Except.error ("KeyError: worksheet not found")
  | some ws => Except.ok (fill_template ws lks)

/-- The loop `for i in range(num_files)`: each iteration loads the template
fresh, fills it with batch `i`, and appends `(filename, document)` to the
archive; a raised error aborts the whole loop. -/
def process_batches (wb : Workbook) (target_sheet platform : String)
    (links : List String) (bs : Nat) : List Nat → Except String (List (String × Sheet))
  | [] => Except.ok []
  | i :: rest =>
    match make_batch_file wb target_sheet (batch_links links bs i) with
    | Except.error e => Except.error e
    | Except.ok doc =>
      match process_batches wb target_sheet platform links bs rest with
      | Except.error e => Except.error e
      | Except.ok entries =>
          Except.ok ((filename platform links.length bs i, doc) :: entries)

/-- The archive name `f"{platform}_Batches_{timestamp}.zip"`. -/
def zip_filename (platform timestamp : String) : String :=
  platform ++ "_Batches_" ++ timestamp ++ ".zip"

/-- The whole button handler: resolve the template (`st.stop` on failure,
modelled as an error), run the batch loop inside the ambient `try`, and on
success offer the archive `(zip name, entries)` for download (`Except.ok`). -/
def generate_run (fs : String → Bool) (load : String → Workbook) (platform : String)
    (links : List String) (bs : Nat) (timestamp : String) :
    Except String (String × List (String × Sheet)) :=
  match find_template_file fs platform with
  | (none, _) => Except.error (platform ++ " template file not found")
  | (some template_path, target_sheet) =>
    match process_batches (load template_path) target_sheet platform links bs
        (List.range (num_files links.length bs)) with
    | Except.error e => Except.error e
    | Except.ok entries => Except.ok (zip_filename platform timestamp, entries)

/-- The fixed priority list of candidate link-column headers. -/
def possible_columns : List String :=
  ["Post link", "post link", "Post Link", "URL", "url", "Link", "link"]

/-- Auto-detection: the first priority-list entry among the table's columns. -/
def detect_link_column (cols : List String) : Option String :=
  possible_columns.find? (fun c => cols.contains c)

/-- A link-column choice: auto-detected, or manual over the surfaced options. -/
inductive ColumnChoice
  | auto (c : String)
  | manual (options : List String)
deriving DecidableEq

/-- The selection step: auto-detect, else surface the full column list. -/
def choose_link_column (cols : List String) : ColumnChoice :=
  match detect_link_column cols with
  | some c => ColumnChoice.auto c
  | none => ColumnChoice.manual cols

/-- Model of `df[link_column].dropna().tolist()`: the selected column with
`none` for null cells; null entries are dropped, everything else is kept. -/
def dropna_links (col : List (Option String)) : List String := col.filterMap id

/-- The per-iteration progress value `(i + 1) / num_files`. -/
def progress (nf i : Nat) : ℚ := ((i : ℚ) + 1) / (nf : ℚ)

theorem find?_first {α : Type} (p : α → Bool) :
    ∀ (l : List α) (c : α), l.find? p = some c →
      ∃ l₁ l₂, l = l₁ ++ c :: l₂ ∧ (∀ d ∈ l₁, p d = false) ∧ p c = true := by
  intro l
  induction l with
  | nil => intro c h; simp at h
  | cons a t ih =>
    intro c h
    by_cases ha : p a = true
    · rw [List.find?_cons_of_pos _ ha] at h
      have hac : a = c := Option.some.inj h
      subst hac
      exact ⟨[], t, rfl, by simp, ha⟩
    · rw [List.find?_cons_of_neg _ (by simpa using ha)] at h
      obtain ⟨l₁, l₂, hl, hfalse, hc⟩ := ih c h
      refine ⟨a :: l₁, l₂, by rw [hl, List.cons_append], ?_, hc⟩
      intro d hd
      rcases List.mem_cons.mp hd with h1 | h1
      · subst h1
        simpa using ha
      · exact hfalse d h1

theorem process_batches_names (wb : Workbook) (target_sheet platform : String)
    (links : List String) (bs : Nat) :
    ∀ (idxs : List Nat) (entries : List (String × Sheet)),
      process_batches wb target_sheet platform links bs idxs = Except.ok entries →
      entries.map Prod.fst = idxs.map (filename platform links.length bs) := by
  intro idxs
  induction idxs with
  | nil =>
    intro entries h
    rw [show process_batches wb target_sheet platform links bs [] =
      Except.ok [] from rfl] at h
    injection h with h1
    rw [← h1]
    rfl
  | cons i rest ih =>
    intro entries h
    unfold process_batches at h
    cases hm : make_batch_file wb target_sheet (batch_links links bs i) with
    | error e => rw [hm] at h; simp at h
    | ok doc =>
      rw [hm] at h
      cases hr : process_batches wb target_sheet platform links bs rest with
      | error e => rw [hr] at h; simp at h
      | ok es =>
        rw [hr] at h
        injection h with h1
        rw [← h1, List.map_cons, List.map_cons, ih es hr]

theorem process_batches_error (wb : Workbook) (target_sheet platform : String)
    (links : List String) (bs : Nat) :
    ∀ (idxs : List Nat) (i : Nat) (e : String), i ∈ idxs →
      make_batch_file wb target_sheet (batch_links links bs i) = Except.error e →
      ∃ e2, process_batches wb target_sheet platform links bs idxs = Except.error e2 := by
  intro idxs
  induction idxs with
  | nil => intro i e hi _; simp at hi
  | cons a rest ih =>
    intro i e hi hb
    rcases List.mem_cons.mp hi with h1 | h1
    · subst h1
      refine ⟨e, ?_⟩
      unfold process_batches
      rw [hb]
    · cases hm : make_batch_file wb target_sheet (batch_links links bs a) with
      | error e3 =>
        refine ⟨e3, ?_⟩
        unfold process_batches
        rw [hm]
      | ok doc =>
        obtain ⟨e2, h2⟩ := ih i e h1 hb
        refine ⟨e2, ?_⟩
        unfold process_batches
        rw [hm, h2]

theorem filename_no_slash (platform : String) (total bs i : Nat)
    (hp : platform = "Instagram" ∨ platform = "TikTok") :
    '/' ∉ (filename platform total bs i).data := by
  intro hmem
  have hmem2 : '/' ∈ filenameChars platform.data total bs i := hmem
  have hm2 := mem_filenameChars platform.data total bs i '/' hmem2
  rcases hm2 with h | h | h | h | h | h | h | h
  · rcases hp with hp | hp <;> subst hp <;> revert h <;> decide
  · revert h; decide
  · obtain ⟨d, hd, hdx⟩ := pad2_mem _ _ h
    exact (digitChar_ne d hd).2.2 hdx.symm
  · revert h; decide
  · obtain ⟨d, hd, hdx⟩ := decimalRepr_mem _ _ h
    exact (digitChar_ne d hd).2.2 hdx.symm
  · revert h; decide
  · obtain ⟨d, hd, hdx⟩ := decimalRepr_mem _ _ h
    exact (digitChar_ne d hd).2.2 hdx.symm
  · revert h; decide

/-- C3: for every completed run the archive holds exactly `num_files` entries,
one per batch, whose filenames are
`{platform}_Batch_{i+1:02d}_Links_{start+1}-{end}.xlsx` — pairwise distinct and
free of `/` (no directory nesting) — and the 250-link, batch-size-100 example
yields the three expected entry names. -/
theorem C3_archive_names (fs : String → Bool) (load : String → Workbook)
    (platform : String) (links : List String) (bs : Nat) (timestamp : String)
    (hbs : 1 ≤ bs) (hp : platform = "Instagram" ∨ platform = "TikTok") :
    (archive_filenames platform links.length bs).length = num_files links.length bs ∧
    (archive_filenames platform links.length bs).Nodup ∧
    (∀ nm ∈ archive_filenames platform links.length bs, '/' ∉ nm.data) ∧
    (∀ zn entries, generate_run fs load platform links bs timestamp =
        Except.ok (zn, entries) →
      entries.map Prod.fst = archive_filenames platform links.length bs) ∧
    archive_filenames ("Instagram") 250 100 =
      ["Instagram_Batch_01_Links_1-100.xlsx",
       "Instagram_Batch_02_Links_101-200.xlsx",
       "Instagram_Batch_03_Links_201-250.xlsx"] := by
  refine ⟨by simp [archive_filenames], ?_, ?_, ?_, by decide⟩
  · have hinj : Function.Injective (filename platform links.length bs) := by
      intro i j hij
      exact filename_injective platform.data links.length bs hbs i j
        (congrArg String.data hij)
    exact List.Nodup.map hinj (List.nodup_range _)
  · intro nm hnm
    obtain ⟨i, _, hfi⟩ := List.mem_map.mp hnm
    rw [← hfi]
    exact filename_no_slash platform links.length bs i hp
  · intro zn entries h
    unfold generate_run at h
    cases hf : find_template_file fs platform with
    | mk p sheet =>
      rw [hf] at h
      cases p with
      | none => simp at h
      | some template_path =>
        replace h : (match process_batches (load template_path) sheet platform links bs
            (List.range (num_files links.length bs)) with
          | Except.error e => Except.error e
          | Except.ok es => Except.ok (zip_filename platform timestamp, es)) =
            Except.ok (zn, entries) := h
        cases hpb : process_batches (load template_path) sheet platform links bs
            (List.range (num_files links.length bs)) with
        | error e => rw [hpb] at h; simp at h
        | ok es =>
          rw [hpb] at h
          injection h with h1
          have h2 : es = entries := (Prod.mk.injEq _ _ _ _).mp h1 |>.2
          rw [← h2, process_batches_names (load template_path) sheet platform links bs
            (List.range (num_files links.length bs)) es hpb]
          rfl

/-- Witness for C3 at a concrete platform, link list and batch size. -/
theorem C3_archive_names_witness :
    (1 ≤ 2 ∧ ("Instagram" = "Instagram" ∨ "Instagram" = "TikTok")) ∧
      (archive_filenames ("Instagram") (["a", "b", "c"].length) 2).length =
        num_files (["a", "b", "c"].length) 2 :=
  ⟨⟨by decide, Or.inl rfl⟩,
    (C3_archive_names (fun _ => false) (fun _ => []) "Instagram"
      ["a", "b", "c"] 2 "ts" (by decide) (Or.inl rfl)).1⟩

/-- C4: two runs with identical filesystem, template loader, platform, link
list and batch size produce identical archive entries — the same filenames and
byte-identical per-batch document contents; the generation timestamp only
enters the archive's own name. -/
theorem C4_timestamp_independent (fs : String → Bool) (load : String → Workbook)
    (platform : String) (links : List String) (bs : Nat) (t₁ t₂ : String) :
    Except.map Prod.snd (generate_run fs load platform links bs t₁) =
      Except.map Prod.snd (generate_run fs load platform links bs t₂) := by
  unfold generate_run
  cases hf : find_template_file fs platform with
  | mk p sheet =>
    cases p with
    | none => rfl
    | some template_path =>
      show Except.map Prod.snd (match process_batches (load template_path) sheet platform
          links bs (List.range (num_files links.length bs)) with
        | Except.error e => Except.error e
        | Except.ok entries => Except.ok (zip_filename platform t₁, entries)) =
        Except.map Prod.snd (match process_batches (load template_path) sheet platform
          links bs (List.range (num_files links.length bs)) with
        | Except.error e => Except.error e
        | Except.ok entries => Except.ok (zip_filename platform t₂, entries))
      cases process_batches (load template_path) sheet platform links bs
          (List.range (num_files links.length bs)) with
      | error e => rfl
      | ok entries => rfl

/-- C5 counterexample: `dropna()` does not remove empty strings.  For the
column `[some "", none, some "a"]` the extracted link list is `["", "a"]`, so
an empty value survives, refuting the claim that both null and empty values
are removed. -/
theorem C5_counterexample :
    dropna_links [some (""), none, some ("a")] = ["", "a"] ∧
      "" ∈ dropna_links [some (""), none, some ("a")] := by decide

/-- C5 (amended): the link list is the selected column with exactly the null
entries removed, preserving the original row order; empty strings are
retained. -/
theorem C5_dropna (col : List (Option String)) :
    dropna_links col = (col.filter (fun o => o.isSome)).map (fun o => o.getD ("")) ∧
    (∀ l : List String, dropna_links (l.map some) = l) ∧
    (∀ s : String, some s ∈ col → s ∈ dropna_links col) := by
  refine ⟨?_, ?_, ?_⟩
  · induction col with
    | nil => rfl
    | cons o t ih =>
      cases o with
      | none => simpa [dropna_links] using ih
      | some s => simpa [dropna_links] using ih
  · intro l
    simp [dropna_links]
  · intro s hs
    exact List.mem_filterMap.mpr ⟨some s, hs, rfl⟩

/-- Witness for C5's amended statement at a concrete column. -/
theorem C5_dropna_witness :
    dropna_links [some ("a"), none, some ("")] =
      (([some ("a"), none, some ("")].filter (fun o => o.isSome)).map (fun o => o.getD (""))) :=
  (C5_dropna [some ("a"), none, some ("")]).1

/-- C6: the link column is the first match, in order, against the fixed
priority list `Post link, post link, Post Link, URL, url, Link, link`; a match
is selected without prompting, and when none matches the full column list is
surfaced for manual selection.  Concretely, a table with a column named `URL`
auto-selects it and a table with only `href` surfaces `["href"]`. -/
theorem C6_column_detection (cols : List String) :
    possible_columns = ["Post link", "post link", "Post Link", "URL", "url",
      "Link", "link"] ∧
    (∀ c, detect_link_column cols = some c →
      c ∈ cols ∧ ∃ pre post, possible_columns = pre ++ c :: post ∧
        ∀ d ∈ pre, d ∉ cols) ∧
    (detect_link_column cols = none ↔ ∀ c ∈ possible_columns, c ∉ cols) ∧
    (detect_link_column cols = none →
      choose_link_column cols = ColumnChoice.manual cols) ∧
    (∀ c, detect_link_column cols = some c →
      choose_link_column cols = ColumnChoice.auto c) ∧
    choose_link_column ["foo", "URL"] = ColumnChoice.auto ("URL") ∧
    choose_link_column ["href"] = ColumnChoice.manual ["href"] := by
  refine ⟨rfl, ?_, ?_, ?_, ?_, by decide, by decide⟩
  · intro c h
    obtain ⟨pre, post, hl, hfalse, hc⟩ := find?_first _ possible_columns c h
    refine ⟨by simpa using hc, pre, post, hl, ?_⟩
    intro d hd hmem
    have := hfalse d hd
    simp [hmem] at this
  · rw [detect_link_column, List.find?_eq_none]
    constructor
    · intro h c hc hmem
      have := h c hc
      simp [hmem] at this
    · intro h c hc
      simp [h c hc]
  · intro h
    unfold choose_link_column
    rw [h]
  · intro c h
    unfold choose_link_column
    rw [h]

/-- Witness for C6 at a concrete column list. -/
theorem C6_column_detection_witness :
    choose_link_column ["foo", "URL"] = ColumnChoice.auto ("URL") :=
  (C6_column_detection ["foo", "URL"]).2.2.2.2.2.1

/-- C7: when the platform's template file is absent at all known locations the
run aborts (`st.stop`) before any batch processing begins, surfacing a
template-not-found error; no archive, not even a partial one, is produced. -/
theorem C7_template_missing (fs : String → Bool) (load : String → Workbook)
    (platform : String) (links : List String) (bs : Nat) (timestamp : String)
    (h : ∀ p ∈ (template_names platform).1, fs p = false) :
    generate_run fs load platform links bs timestamp =
      Except.error (platform ++ " template file not found") := by
  have hfind : (template_names platform).1.find? fs = none := by
    rw [List.find?_eq_none]
    intro p hp
    simp [h p hp]
  unfold generate_run find_template_file
  rw [hfind]

/-- Witness for C7: a filesystem on which no template path exists. -/
theorem C7_template_missing_witness :
    (∀ p ∈ (template_names ("Instagram")).1, (fun _ : String => false) p = false) ∧
      generate_run (fun _ => false) (fun _ => []) "Instagram" ["a"] 1 "ts" =
        Except.error ("Instagram" ++ " template file not found") :=
  ⟨by decide,
    C7_template_missing (fun _ => false) (fun _ => []) "Instagram" ["a"] 1 "ts"
      (by decide)⟩

/-- C8: if any single batch's templating step fails (here: the named sheet is
missing from the loaded template), the exception propagates to the ambient
handler, the whole run aborts with an error, and no archive is offered for
download — all-or-nothing, no partial-success archive. -/
theorem C8_batch_failure (fs : String → Bool) (load : String → Workbook)
    (platform : String) (links : List String) (bs : Nat) (timestamp : String)
    (template_path target_sheet : String) (i : Nat) (e : String)
    (hf : find_template_file fs platform = (some template_path, target_sheet))
    (hi : i < num_files links.length bs)
    (hb : make_batch_file (load template_path) target_sheet (batch_links links bs i) =
      Except.error e) :
    ∃ e2, generate_run fs load platform links bs timestamp = Except.error e2 := by
  obtain ⟨e2, h2⟩ := process_batches_error (load template_path) target_sheet platform
    links bs (List.range (num_files links.length bs)) i e (List.mem_range.mpr hi) hb
  refine ⟨e2, ?_⟩
  unfold generate_run
  rw [hf]
  show (match process_batches (load template_path) target_sheet platform links bs
      (List.range (num_files links.length bs)) with
    | Except.error e => Except.error e
    | Except.ok entries => Except.ok (zip_filename platform timestamp, entries)) =
      Except.error e2
  rw [h2]

/-- Witness for C8: a loaded template without the target sheet. -/
theorem C8_batch_failure_witness :
    (find_template_file (fun _ => true) "Instagram" =
        (some ("IG_Influencers_100.xlsx"), "category ig") ∧
      0 < num_files (["a"].length) 1 ∧
      make_batch_file ((fun _ : String => ([] : Workbook)) "IG_Influencers_100.xlsx")
        "category ig" (batch_links ["a"] 1 0) =
          Except.error ("KeyError: worksheet not found")) ∧
      ∃ e2, generate_run (fun _ => true) (fun _ => []) "Instagram" ["a"] 1 "ts" =
        Except.error e2 :=
  ⟨⟨rfl, by decide, rfl⟩,
    C8_batch_failure (fun _ => true) (fun _ => []) "Instagram" ["a"] 1 "ts"
      "IG_Influencers_100.xlsx" "category ig" 0 "KeyError: worksheet not found"
      rfl (by decide) rfl⟩

/-- C9: with zero links after null-removal the run computes zero batches,
executes no per-batch work, and still succeeds, offering an archive with zero
entries. -/
theorem C9_zero_links (fs : String → Bool) (load : String → Workbook)
    (platform : String) (bs : Nat) (timestamp : String)
    (template_path target_sheet : String) (hbs : 1 ≤ bs)
    (hf : find_template_file fs platform = (some template_path, target_sheet)) :
    num_files 0 bs = 0 ∧
    batches [] bs = [] ∧
    generate_run fs load platform [] bs timestamp =
      Except.ok (zip_filename platform timestamp, []) := by
  have h0 : num_files 0 bs = 0 := num_files_zero bs hbs
  refine ⟨h0, by simp [batches, h0], ?_⟩
  unfold generate_run
  rw [hf]
  simp only [List.length_nil]
  rw [h0]
  rfl

/-- Witness for C9 at a concrete configuration. -/
theorem C9_zero_links_witness :
    (1 ≤ 1 ∧ find_template_file (fun _ => true) "Instagram" =
        (some ("IG_Influencers_100.xlsx"), "category ig")) ∧
      generate_run (fun _ => true) (fun _ => []) "Instagram" [] 1 "ts" =
        Except.ok (zip_filename ("Instagram") ("ts"), []) :=
  ⟨⟨by decide, rfl⟩,
    (C9_zero_links (fun _ => true) (fun _ => []) "Instagram" 1 "ts"
      "IG_Influencers_100.xlsx" "category ig" (by decide) rfl).2.2⟩

/-- C10: the division `(i + 1) / num_files` in the progress computation is
evaluated only for `i` in `range(num_files)`, where `num_files ≥ 1`; hence for
every input, including an empty link list, no division by zero occurs. -/
theorem C10_no_div_by_zero (N bs i : Nat) (hi : i ∈ List.range (num_files N bs)) :
    num_files N bs ≠ 0 ∧ ((num_files N bs : ℚ) ≠ 0) ∧
      progress (num_files N bs) i * ((num_files N bs : ℚ)) = (i : ℚ) + 1 := by
  have hlt : i < num_files N bs := List.mem_range.mp hi
  have hne : num_files N bs ≠ 0 := by omega
  have hq : ((num_files N bs : ℚ)) ≠ 0 := by exact_mod_cast hne
  refine ⟨hne, hq, ?_⟩
  unfold progress
  exact div_mul_cancel₀ _ hq

/-- Witness for C10 at a concrete loop iteration. -/
theorem C10_no_div_by_zero_witness :
    0 ∈ List.range (num_files 3 2) ∧ num_files 3 2 ≠ 0 :=
  ⟨by decide, (C10_no_div_by_zero 3 2 0 (by decide)).1⟩
